import Mathlib

/-!
Verification of the wordle-archive frontend (src/frontend/src/App.vue and
src/frontend/src/types/game.ts) as a shallow embedding in Lean.

Conventions of the embedding:
* JavaScript numbers are modeled as exact rationals (`ℚ`) or naturals (`ℕ`);
  `toFixed(2)` is modeled as exact rounding of the rational to two fraction
  digits (half away from zero for the nonnegative values that occur here).
* A JS array held by a Vue ref is modeled as a `List`; computations that in JS
  could mutate the array are modeled in state-passing style, returning the
  contents of the referenced array alongside their result.  The spread copy
  `[...a]` yields a fresh array with the same elements, so an in-place
  operation applied to the copy leaves the original list component unchanged.
* `new Date(s).getMonth()` for an ISO `YYYY-MM-DD` string is the 0-based month
  parsed from characters 5..6; `toLocaleString` month names use the en-US
  short names.
* The backend HTTP routes are not part of the repository sources; where a
  claim depends on them, the wire shapes are modelled from the spec (section 6)
  together with the field and status names the client code actually reads.
-/

namespace WordleArchive

/-- JSON values, as produced by `JSON.stringify` / consumed from `response.data`.
Numbers are integers here: the only numeric fields the app serializes or reads
are `puzzle_id`, `currentRowIndex` and `added`, all integral. -/
inductive Json where
  | str : String → Json
  | num : Int → Json
  | jbool : Bool → Json
  | jnull : Json
  | arr : List Json → Json
  | obj : List (String × Json) → Json

/-- `game_data.status` of a `Game` (src/frontend/src/types/game.ts). -/
inductive GameStatus where
  | WIN
  | FAIL
  | IN_PROGRESS
deriving DecidableEq, Repr

/-- `game_data.boardState`: an object with keys "0".."5", one guess row each
(src/frontend/src/types/game.ts). -/
structure BoardState where
  r0 : String
  r1 : String
  r2 : String
  r3 : String
  r4 : String
  r5 : String
deriving DecidableEq, Repr

/-- `game_data` of a `Game` (src/frontend/src/types/game.ts).  The TS type
gives `currentRowIndex` the type `1 | 2 | 3 | 4 | 5 | 6`; it is a `ℕ` here and
theorems that need the bound carry it as a hypothesis. -/
structure GameData where
  boardState : BoardState
  currentRowIndex : ℕ
  hardMode : Bool
  status : GameStatus
deriving DecidableEq, Repr

/-- The `Game` record (src/frontend/src/types/game.ts).  The mongo `ObjectId`
is modeled by its hex string; `fetched_at` by its serialized timestamp
string. -/
structure Game where
  _id : String
  user_id : String
  print_date : String
  puzzle_id : ℕ
  solution : String
  game_data : GameData
  fetched_at : String
deriving DecidableEq, Repr

instance : Inhabited Game :=
  ⟨{ _id := "", user_id := "", print_date := "", puzzle_id := 0, solution := "",
     game_data := { boardState := ⟨"", "", "", "", "", ""⟩, currentRowIndex := 1,
                    hardMode := false, status := GameStatus.IN_PROGRESS },
     fetched_at := "" }⟩

/-! ### Number formatting: `x.toFixed(2)` -/

/-- Two-digit zero padding of a number below 100. -/
def pad2 (n : ℕ) : String :=
  if n < 10 then "0" ++ toString n else toString n

/-- `x.toFixed(2)` for a nonnegative number `x`: round `x` to two fraction
digits and print it as `<int>.<2 digits>`. -/
def toFixed2 (q : ℚ) : String :=
  let n : ℕ := (round (q * 100)).toNat
  toString (n / 100) ++ "." ++ pad2 (n % 100)

/-! ### Summary statistics (App.vue, computed properties) -/

/-- `totalGames`: `games.value.length`. -/
def totalGames (games : List Game) : ℕ := games.length

/-- `winningGames`: `games.value.filter(game => game.game_data.status === 'WIN')`. -/
def winningGames (games : List Game) : List Game :=
  games.filter (fun game => game.game_data.status == GameStatus.WIN)

/-- `totalWins`: `winningGames.value.length`. -/
def totalWins (games : List Game) : ℕ := (winningGames games).length

/-- `winPercentage`: returns `'0.00%'` when there are no games, else
`(totalWins / totalGames * 100).toFixed(2) + '%'`. -/
def winPercentage (games : List Game) : String :=
  if totalGames games = 0 then "0.00%"
  else
    let percentage : ℚ := (totalWins games : ℚ) / (totalGames games : ℚ) * 100
    toFixed2 percentage ++ "%"

/-- `averageTurns`: returns `'N/A'` when there are no wins, else the mean of
`currentRowIndex` over the winning games via `reduce`, as `toFixed(2)`. -/
def averageTurns (games : List Game) : String :=
  if totalWins games = 0 then "N/A"
  else
    let totalTurns : ℚ :=
      (winningGames games).foldl (fun sum game => sum + (game.game_data.currentRowIndex : ℚ)) 0
    let average : ℚ := totalTurns / (totalWins games : ℚ)
    toFixed2 average

/-! ### Date handling for the chart

`new Date(game.print_date)` with an ISO `YYYY-MM-DD` string; `getMonth()` is
0-based, and the label `toLocaleString('default', { month: 'short', year:
'numeric' })` is the en-US short month name followed by the year. -/

/-- Character of a string at index `i` (padding with a blank past the end). -/
def charAt (s : String) (i : ℕ) : Char := s.data.getD i ' '

/-- Numeric value of a decimal digit character. -/
def digitVal (c : Char) : ℕ := c.toNat - 48

/-- The 1-based month of an ISO `YYYY-MM-DD` string (characters 5..6). -/
def monthNum (s : String) : ℕ := 10 * digitVal (charAt s 5) + digitVal (charAt s 6)

/-- `new Date(s).getMonth()`: 0-based month of the ISO date string. -/
def getMonthJS (s : String) : ℕ := monthNum s - 1

/-- The year of an ISO `YYYY-MM-DD` string (characters 0..3). -/
def yearNum (s : String) : ℕ :=
  1000 * digitVal (charAt s 0) + 100 * digitVal (charAt s 1) +
    10 * digitVal (charAt s 2) + digitVal (charAt s 3)

/-- en-US short month name for a 0-based month index. -/
def monthShort : ℕ → String
  | 0 => "Jan" | 1 => "Feb" | 2 => "Mar" | 3 => "Apr" | 4 => "May" | 5 => "Jun"
  | 6 => "Jul" | 7 => "Aug" | 8 => "Sep" | 9 => "Oct" | 10 => "Nov" | 11 => "Dec"
  | _ => ""

/-- `date.toLocaleString('default', { month: 'short', year: 'numeric' })` for a
game's `print_date`. -/
def monthLabel (game : Game) : String :=
  monthShort (getMonthJS game.print_date) ++ " " ++ toString (yearNum game.print_date)

/-- The month of the date string is in 1..12, so that `getMonth()` lands on a
real month name.  Well-formed `print_date` values satisfy this. -/
def MonthInRange (s : String) : Prop := 1 ≤ monthNum s ∧ monthNum s ≤ 12

instance (s : String) : Decidable (MonthInRange s) := by
  unfold MonthInRange; infer_instance

/-! ### Chart data (App.vue, `chartData` computed) -/

/-- `sortedGames.filter(game => game.game_data.status === 'WIN' ||
game.game_data.status === 'FAIL')`. -/
def finishedGames (l : List Game) : List Game :=
  l.filter (fun game =>
    game.game_data.status == GameStatus.WIN || game.game_data.status == GameStatus.FAIL)

/-- The `finishedGames.map(...)` building the labels: `lastMonth` starts `null`
(`none`); a game whose `getMonth()` differs from `lastMonth` yields its
month-year label and updates `lastMonth`, otherwise it yields `''`. -/
def monthLabels : Option ℕ → List Game → List String
  | _, [] => []
  | lastMonth, game :: rest =>
    let currentMonth := getMonthJS game.print_date
    if some currentMonth = lastMonth then
      "" :: monthLabels lastMonth rest
    else
      monthLabel game :: monthLabels (some currentMonth) rest

/-- One data point of the chart: a WIN contributes `currentRowIndex`, anything
else (a FAIL, after the filter) contributes `7`. -/
def chartPoint (game : Game) : ℕ :=
  if game.game_data.status == GameStatus.WIN then game.game_data.currentRowIndex else 7

/-- The single dataset of the chart. -/
structure Dataset where
  label : String
  backgroundColor : String
  borderColor : String
  data : List ℕ
  tension : ℚ
  printDates : List String
  solutions : List String
deriving DecidableEq

/-- The object returned by the `chartData` computed property. -/
structure ChartData where
  labels : List String
  datasets : List Dataset
deriving DecidableEq

/-- The chart object built from the already-reversed array `sortedGames`. -/
def chartFrom (sortedGames : List Game) : ChartData :=
  let fin := finishedGames sortedGames
  { labels := monthLabels none fin
    datasets := [{ label := "Guesses"
                   backgroundColor := "#41B883"
                   borderColor := "#41B883"
                   data := fin.map chartPoint
                   tension := 3 / 10
                   printDates := fin.map (fun game => game.print_date)
                   solutions := fin.map (fun game => game.solution) }] }

/-! ### Mutation model for the array behind `games.value`

Presentation computations are given the list currently referenced by
`games.value` and return their result together with the list that
`games.value` references afterwards. -/

/-- The spread `[...a]`: a fresh array with the same elements. -/
def copyOf (a : List Game) : List Game := a

/-- `a.reverse()` mutates `a` in place and returns it: both the returned array
and the array object afterwards hold the reversed elements. -/
def reverseInPlace (a : List Game) : List Game × List Game := (a.reverse, a.reverse)

/-- `chartData`: reverses a spread copy (`[...games.value].reverse()`) — the
in-place reverse hits the fresh copy, so the array behind `games.value`
(second component) is returned untouched. -/
def chartDataS (games : List Game) : ChartData × List Game :=
  let sortedGames := (reverseInPlace (copyOf games)).1
  (chartFrom sortedGames, games)

/-- The value of the `chartData` computed property. -/
def chartData (games : List Game) : ChartData := (chartDataS games).1

/-- State-passing reading of `totalGames`. -/
def totalGamesS (games : List Game) : ℕ × List Game := (totalGames games, games)

/-- State-passing reading of `winningGames`. -/
def winningGamesS (games : List Game) : List Game × List Game := (winningGames games, games)

/-- State-passing reading of `winPercentage`. -/
def winPercentageS (games : List Game) : String × List Game := (winPercentage games, games)

/-- State-passing reading of `averageTurns`. -/
def averageTurnsS (games : List Game) : String × List Game := (averageTurns games, games)

/-! ### Chart options (App.vue, `chartOptions.scales.y`) -/

/-- The y scale of `chartOptions`: `min: 1, max: 7`, tick step 1, and a tick
callback rendering the value `7` as `'FAIL'`. -/
structure YScale where
  ymin : ℕ
  ymax : ℕ
  stepSize : ℕ
  tickLabel : ℕ → String

/-- `chartOptions.scales.y` as written in App.vue. -/
def chartOptionsY : YScale :=
  { ymin := 1, ymax := 7, stepSize := 1
    tickLabel := fun value => if value = 7 then "FAIL" else toString value }

/-! ### Games table (App.vue template, the Turns cell) -/

/-- The Turns cell of a game's table row: `currentRowIndex + "/6"` for a WIN,
`"X/6"` for a FAIL, `"N/A"` otherwise, with a `*` marker in hard mode. -/
def turnsCell (game : Game) : String :=
  (match game.game_data.status with
   | GameStatus.WIN => toString game.game_data.currentRowIndex ++ "/6"
   | GameStatus.FAIL => "X/6"
   | GameStatus.IN_PROGRESS => "N/A") ++
  (if game.game_data.hardMode then "*" else "")

/-! ### JSON export (App.vue, `downloadGames`) -/

/-- Wire form of a status, as serialized by `JSON.stringify`. -/
def statusToString : GameStatus → String
  | GameStatus.WIN => "WIN"
  | GameStatus.FAIL => "FAIL"
  | GameStatus.IN_PROGRESS => "IN_PROGRESS"

/-- Inverse of `statusToString`. -/
def statusOfString (s : String) : Option GameStatus :=
  if s = "WIN" then some GameStatus.WIN
  else if s = "FAIL" then some GameStatus.FAIL
  else if s = "IN_PROGRESS" then some GameStatus.IN_PROGRESS
  else none

/-- `JSON.stringify` of one `Game` record, fields in declaration order. -/
def gameToJson (game : Game) : Json :=
  Json.obj
    [("_id", Json.str game._id),
     ("user_id", Json.str game.user_id),
     ("print_date", Json.str game.print_date),
     ("puzzle_id", Json.num (game.puzzle_id : Int)),
     ("solution", Json.str game.solution),
     ("game_data", Json.obj
       [("boardState", Json.obj
         [("0", Json.str game.game_data.boardState.r0),
          ("1", Json.str game.game_data.boardState.r1),
          ("2", Json.str game.game_data.boardState.r2),
          ("3", Json.str game.game_data.boardState.r3),
          ("4", Json.str game.game_data.boardState.r4),
          ("5", Json.str game.game_data.boardState.r5)]),
        ("currentRowIndex", Json.num (game.game_data.currentRowIndex : Int)),
        ("hardMode", Json.jbool game.game_data.hardMode),
        ("status", Json.str (statusToString game.game_data.status))]),
     ("fetched_at", Json.str game.fetched_at)]

/-- Decoder inverting `gameToJson`; used to show the export loses nothing. -/
def decodeGame : Json → Option Game
  | Json.obj
      [("_id", Json.str i), ("user_id", Json.str u), ("print_date", Json.str pd),
       ("puzzle_id", Json.num pid), ("solution", Json.str sol),
       ("game_data", Json.obj
         [("boardState", Json.obj
           [("0", Json.str b0), ("1", Json.str b1), ("2", Json.str b2),
            ("3", Json.str b3), ("4", Json.str b4), ("5", Json.str b5)]),
          ("currentRowIndex", Json.num cri), ("hardMode", Json.jbool hm),
          ("status", Json.str st)]),
       ("fetched_at", Json.str fa)] =>
    match statusOfString st, pid.toNat', cri.toNat' with
    | some status, some p, some c =>
      some { _id := i, user_id := u, print_date := pd, puzzle_id := p, solution := sol,
             game_data := { boardState := ⟨b0, b1, b2, b3, b4, b5⟩,
                            currentRowIndex := c, hardMode := hm, status := status },
             fetched_at := fa }
    | _, _, _ => none
  | _ => none

/-- Element-wise decoder for the exported array. -/
def decodeGameList : List Json → Option (List Game)
  | [] => some []
  | j :: rest =>
    match decodeGame j, decodeGameList rest with
    | some game, some games => some (game :: games)
    | _, _ => none

/-- Decoder for the whole export file. -/
def decodeGames : Json → Option (List Game)
  | Json.arr l => decodeGameList l
  | _ => none

/-- The file download triggered by clicking the blob link. -/
structure DownloadAction where
  filename : String
  mime : String
  content : Json

/-- `downloadGames`: serialize `games.value` with `JSON.stringify(games.value,
null, 2)` into a blob of type `application/json` and download it as
`wordle_games.json`. -/
def downloadGames (games : List Game) : DownloadAction :=
  { filename := "wordle_games.json"
    mime := "application/json"
    content := Json.arr (games.map gameToJson) }

/-- State-passing reading of `downloadGames`. -/
def downloadGamesS (games : List Game) : DownloadAction × List Game :=
  (downloadGames games, games)

/-! ### The `POST /sync` exchange (App.vue, `syncData`)

The backend route is not in the repository sources.  Its response body is
modelled from the spec (section 6: `POST /sync` returns `{ status, added,
errors? }` with the terminal labels of the section 4.5 state machine); the
wire encoding of the labels is the lower-case form the client compares
against. -/

/-- Modelled from the spec: the `POST /sync` response body `{ status, added,
errors? }` produced by the missing backend route. -/
structure SyncResponse where
  status : String
  added : ℕ
  errors : Option (List String)
deriving DecidableEq

/-- Modelled from the spec: the wire encodings of the four terminal labels of
the section 4.5 state machine, `ALREADY_UP_TO_DATE`, `NO_IDS_FOUND`,
`NO_NEW_DATA` and `DONE`. -/
def terminalStatuses : List String :=
  ["already_up_to_date", "no_ids_found", "no_new_data", "done"]

/-- Modelled from the spec: a summary the orchestrator can actually return —
its status is a terminal label, `NO_NEW_DATA` means zero records were merged,
and `DONE` carries a positive count. -/
def ValidSummary (r : SyncResponse) : Prop :=
  r.status ∈ terminalStatuses ∧
    (r.status = "no_new_data" → r.added = 0) ∧ (r.status = "done" → 0 < r.added)

instance (r : SyncResponse) : Decidable (ValidSummary r) := by
  unfold ValidSummary; infer_instance

/-- The success message of `syncData` when records were added. -/
def addedMessage (n : ℕ) : String :=
  "Sync successful! Added " ++ toString n ++ " new puzzle records. Fetching new data..."

/-- The message `syncData` assigns to `syncStatus` from a settled `/sync`
response (the if/else chain of App.vue lines 35-44). -/
def syncMessage (r : SyncResponse) : String :=
  if r.status = "already_up_to_date" then "Archive already up to date!"
  else if r.status = "no_ids_found" then "No puzzle IDs found."
  else if r.added = 0 then "Sync executed, no new puzzles added."
  else addedMessage r.added

/-- How the awaited `axios.post` settles: a response, or a thrown error with a
message. -/
inductive SyncOutcome where
  | ok : SyncResponse → SyncOutcome
  | err : String → SyncOutcome

/-- The value `syncData` leaves in `syncStatus` once its request settles. -/
def settledStatus : SyncOutcome → String
  | SyncOutcome.ok r => syncMessage r
  | SyncOutcome.err m => "Sync failed: " ++ m

/-! ### Single-flight model of the sync button (App.vue template line 231)

`UIState` carries the reactive `syncStatus` string and the number of `/sync`
requests currently in flight.  Clicking the button runs `syncData`, which
synchronously sets `syncStatus` to `'Syncing...'` before awaiting the post;
the DOM only delivers the click when the button is not disabled. -/

structure UIState where
  syncStatus : String
  inFlight : ℕ
deriving DecidableEq

/-- The binding `:disabled="syncStatus === 'Syncing...'"`. -/
def buttonDisabled (s : UIState) : Bool := s.syncStatus == "Syncing..."

/-- Transitions of the sync UI: a click on the enabled button starts a
request, and a pending request settles to its final message. -/
inductive UIStep : UIState → UIState → Prop
  | click (s : UIState) (h : buttonDisabled s = false) :
      UIStep s { syncStatus := "Syncing...", inFlight := s.inFlight + 1 }
  | settle (s : UIState) (o : SyncOutcome) (h : 0 < s.inFlight) :
      UIStep s { syncStatus := settledStatus o, inFlight := s.inFlight - 1 }

/-- States the UI can reach from page load (`syncStatus = ref('')`, nothing in
flight). -/
inductive ReachableUI : UIState → Prop
  | init : ReachableUI { syncStatus := "", inFlight := 0 }
  | step {s t : UIState} : ReachableUI s → UIStep s t → ReachableUI t

/-! ### The `GET /games` exchange (App.vue, `fetchGames`)

The backend route is not in the repository sources; the response body is
modelled from the spec (section 6) as a JSON object, i.e. a list of
field-name/value pairs, and `fetchGames` is the client code that reads three
fields of `response.data` into the refs. -/

/-- Field access `body.<k>` on a JSON object given as its field list. -/
def lookupField (body : List (String × Json)) (k : String) : Option Json :=
  (body.find? (fun p => p.1 == k)).map (fun p => p.2)

/-- The client refs `fetchGames` assigns: `games.value`, `lastSynced.value`
and `userId.value`. -/
structure ClientState where
  games : Option Json
  lastSynced : Option Json
  userId : Option Json

/-- `fetchGames` (App.vue lines 17-29): reads `response.data.games`,
`response.data.last_synced_at` and `response.data.user_id`. -/
def fetchGamesState (body : List (String × Json)) : ClientState :=
  { games := lookupField body "games"
    lastSynced := lookupField body "last_synced_at"
    userId := lookupField body "user_id" }

/-! ### Observational equivalence for the `currentRowIndex` claim -/

/-- Two game records that agree on every field, except that `currentRowIndex`
may differ when the status is `IN_PROGRESS`.  A presentation computation that
never reads `currentRowIndex` of an in-progress record cannot distinguish two
related lists. -/
def CriShielded (g h : Game) : Prop :=
  g._id = h._id ∧ g.user_id = h.user_id ∧ g.print_date = h.print_date ∧
  g.puzzle_id = h.puzzle_id ∧ g.solution = h.solution ∧ g.fetched_at = h.fetched_at ∧
  g.game_data.boardState = h.game_data.boardState ∧
  g.game_data.hardMode = h.game_data.hardMode ∧
  g.game_data.status = h.game_data.status ∧
  (g.game_data.status ≠ GameStatus.IN_PROGRESS →
    g.game_data.currentRowIndex = h.game_data.currentRowIndex)

instance (g h : Game) : Decidable (CriShielded g h) := by
  unfold CriShielded; infer_instance

/-! ### Concrete sample records used by the witnesses -/

/-- A finished, won game (4 guesses, March 2024). -/
def sampleWin : Game :=
  { _id := "65f0a", user_id := "u1", print_date := "2024-03-15", puzzle_id := 1000,
    solution := "CRANE",
    game_data := { boardState := ⟨"SLATE", "CRONY", "CRANE", "", "", ""⟩,
                   currentRowIndex := 3, hardMode := false, status := GameStatus.WIN },
    fetched_at := "2024-03-15T12:00:00Z" }

/-- A finished, lost game (April 2024). -/
def sampleFail : Game :=
  { _id := "65f0b", user_id := "u1", print_date := "2024-04-02", puzzle_id := 1018,
    solution := "QUIRK",
    game_data := { boardState := ⟨"SLATE", "CRONY", "PUMAS", "QUICK", "QUILT", "QUIRT"⟩,
                   currentRowIndex := 6, hardMode := true, status := GameStatus.FAIL },
    fetched_at := "2024-04-02T12:00:00Z" }

/-- An unfinished game whose `currentRowIndex` is 2. -/
def sampleInProgress : Game :=
  { _id := "65f0c", user_id := "u1", print_date := "2024-04-03", puzzle_id := 1019,
    solution := "",
    game_data := { boardState := ⟨"SLATE", "CRONY", "", "", "", ""⟩,
                   currentRowIndex := 2, hardMode := false, status := GameStatus.IN_PROGRESS },
    fetched_at := "2024-04-03T12:00:00Z" }

/-- `sampleInProgress` with a different `currentRowIndex`. -/
def sampleInProgressAlt : Game :=
  { sampleInProgress with
    game_data := { sampleInProgress.game_data with currentRowIndex := 5 } }

/-- A `GET /games` response body using the snake_case field names the client
reads. -/
def sampleBodySnake : List (String × Json) :=
  [("games", Json.arr []), ("last_synced_at", Json.str "2024-04-03T12:00:00Z"),
   ("user_id", Json.str "u1")]

/-- A `GET /games` response body spelled with the camelCase field names the
spec quotes. -/
def sampleBodyCamel : List (String × Json) :=
  [("games", Json.arr []), ("lastSyncedAt", Json.str "2024-04-03T12:00:00Z"),
   ("userId", Json.str "u1")]

/-! ## Helper lemmas -/

/-- Serialization of a single record loses nothing. -/
lemma decodeGame_gameToJson (game : Game) : decodeGame (gameToJson game) = some game := by
  obtain ⟨i, u, pd, pid, sol, ⟨⟨b0, b1, b2, b3, b4, b5⟩, cri, hm, st⟩, fa⟩ := game
  cases st <;> rfl

/-- Serialization of the whole list loses nothing. -/
lemma decodeGameList_map (games : List Game) :
    decodeGameList (games.map gameToJson) = some games := by
  induction games with
  | nil => rfl
  | cons game rest ih =>
    simp only [List.map, decodeGameList, decodeGame_gameToJson game, ih]

/-! ## Claim theorems -/

/-- Claim C5: `GameRecord`s are read-only outside the Sync Orchestrator.  Each
presentation computation (`totalGames`, `winningGames`, `winPercentage`,
`averageTurns`, `chartData`, `downloadGames`), run against the array behind
`games.value`, leaves that array — elements and order — unchanged; in
particular `chartData` reverses a spread copy (whose contents do end up
reversed, last conjunct) and not the original array. -/
theorem presentation_leaves_games_unchanged (games : List Game) :
    (totalGamesS games).2 = games ∧
    (winningGamesS games).2 = games ∧
    (winPercentageS games).2 = games ∧
    (averageTurnsS games).2 = games ∧
    (chartDataS games).2 = games ∧
    (downloadGamesS games).2 = games ∧
    (reverseInPlace (copyOf games)).2 = games.reverse :=
  ⟨rfl, rfl, rfl, rfl, rfl, rfl, rfl⟩

/-- Claim C7: `downloadGames` downloads exactly the currently loaded games: a
file named `wordle_games.json` of type `application/json` whose content is the
JSON serialization of the whole `games.value` array, record by record in
order; decoding the content recovers the exact list, so no record was
filtered, transformed or modified. -/
theorem downloadGames_exports_all_games (games : List Game) :
    (downloadGames games).filename = "wordle_games.json" ∧
    (downloadGames games).mime = "application/json" ∧
    (downloadGames games).content = Json.arr (games.map gameToJson) ∧
    decodeGames (downloadGames games).content = some games :=
  ⟨rfl, rfl, rfl, by simp only [downloadGames, decodeGames, decodeGameList_map]⟩

/-- Claim C9: the summary statistics never divide by zero.  With an empty
games list `winPercentage` short-circuits to the literal `'0.00%'` before the
quotient, with zero wins `averageTurns` short-circuits to `'N/A'`, and in
every other case both produce a finite two-fraction-digit decimal string. -/
theorem stats_guard_division (games : List Game) :
    (games = [] → winPercentage games = "0.00%") ∧
    (totalWins games = 0 → averageTurns games = "N/A") ∧
    (games ≠ [] → ∃ intPart fracPart : ℕ, fracPart < 100 ∧
      winPercentage games = toString intPart ++ "." ++ pad2 fracPart ++ "%") ∧
    (totalWins games ≠ 0 → ∃ intPart fracPart : ℕ, fracPart < 100 ∧
      averageTurns games = toString intPart ++ "." ++ pad2 fracPart) := by
  refine ⟨fun h => ?_, fun h => ?_, fun h => ?_, fun h => ?_⟩
  · subst h; rfl
  · simp [averageTurns, h]
  · have hlen : totalGames games ≠ 0 := by
      simpa [totalGames, List.length_eq_zero] using h
    refine ⟨(round (((totalWins games : ℚ) / (totalGames games : ℚ) * 100) * 100)).toNat / 100,
            (round (((totalWins games : ℚ) / (totalGames games : ℚ) * 100) * 100)).toNat % 100,
            Nat.mod_lt _ (by norm_num), ?_⟩
    simp only [winPercentage, if_neg hlen, toFixed2]
  · refine ⟨(round ((((winningGames games).foldl
        (fun sum game => sum + (game.game_data.currentRowIndex : ℚ)) 0) /
          (totalWins games : ℚ)) * 100)).toNat / 100,
      (round ((((winningGames games).foldl
        (fun sum game => sum + (game.game_data.currentRowIndex : ℚ)) 0) /
          (totalWins games : ℚ)) * 100)).toNat % 100,
      Nat.mod_lt _ (by norm_num), ?_⟩
    simp only [averageTurns, if_neg h, toFixed2]

/-- Witness for C9 at concrete inputs: the empty list and a one-win list. -/
theorem stats_guard_division_witness :
    winPercentage [] = "0.00%" ∧ averageTurns [] = "N/A" ∧
    (∃ intPart fracPart : ℕ, fracPart < 100 ∧
      winPercentage [sampleWin] = toString intPart ++ "." ++ pad2 fracPart ++ "%") ∧
    (∃ intPart fracPart : ℕ, fracPart < 100 ∧
      averageTurns [sampleWin] = toString intPart ++ "." ++ pad2 fracPart) :=
  ⟨(stats_guard_division []).1 rfl, (stats_guard_division []).2.1 rfl,
   (stats_guard_division [sampleWin]).2.2.1 (List.cons_ne_nil _ _),
   (stats_guard_division [sampleWin]).2.2.2 (by decide)⟩

/-- `reduce` with `+` starting from an accumulator is the accumulator plus the
sum of the mapped values. -/
lemma foldl_add_map (f : Game → ℚ) :
    ∀ (l : List Game) (init : ℚ),
      l.foldl (fun sum game => sum + f game) init = init + (l.map f).sum := by
  intro l
  induction l with
  | nil => simp
  | cons game rest ih =>
    intro init
    simp only [List.foldl_cons, List.map_cons, List.sum_cons, ih]
    ring

/-- Claim C10: for a non-empty list, `winPercentage` is the number of WIN
games over the total, times 100, to two fraction digits with a trailing `%`;
and with at least one WIN game, `averageTurns` is the arithmetic mean of
`currentRowIndex` over exactly the WIN games (FAIL and IN_PROGRESS excluded),
to two fraction digits. -/
theorem stats_formulas (games : List Game) :
    (games ≠ [] → winPercentage games =
      toFixed2 ((games.countP (fun g => g.game_data.status == GameStatus.WIN) : ℚ) /
        (games.length : ℚ) * 100) ++ "%") ∧
    (0 < games.countP (fun g => g.game_data.status == GameStatus.WIN) →
      averageTurns games =
        toFixed2 ((((games.filter (fun g => g.game_data.status == GameStatus.WIN)).map
            (fun g => (g.game_data.currentRowIndex : ℚ))).sum) /
          (games.countP (fun g => g.game_data.status == GameStatus.WIN) : ℚ))) := by
  have hcount : games.countP (fun g => g.game_data.status == GameStatus.WIN) =
      totalWins games := by
    simp [totalWins, winningGames, List.countP_eq_length_filter]
  constructor
  · intro h
    have hlen : totalGames games ≠ 0 := by
      simpa [totalGames, List.length_eq_zero] using h
    simp only [totalGames] at hlen
    simp only [winPercentage, totalGames, if_neg hlen, hcount]
  · intro h
    have hw : totalWins games ≠ 0 := by rw [← hcount]; omega
    simp only [averageTurns, if_neg hw]
    rw [foldl_add_map (fun g => (g.game_data.currentRowIndex : ℚ)) (winningGames games) 0,
      zero_add, hcount]
    simp only [winningGames]

/-- Witness for C10 at a concrete two-game list (one WIN, one FAIL). -/
theorem stats_formulas_witness :
    winPercentage [sampleWin, sampleFail] =
      toFixed2 ((List.countP (fun g => g.game_data.status == GameStatus.WIN)
          [sampleWin, sampleFail] : ℚ) /
        (List.length [sampleWin, sampleFail] : ℚ) * 100) ++ "%" ∧
    averageTurns [sampleWin, sampleFail] =
      toFixed2 (((List.filter (fun g => g.game_data.status == GameStatus.WIN)
            [sampleWin, sampleFail]).map
          (fun g => (g.game_data.currentRowIndex : ℚ))).sum /
        (List.countP (fun g => g.game_data.status == GameStatus.WIN)
          [sampleWin, sampleFail] : ℚ)) :=
  ⟨(stats_formulas [sampleWin, sampleFail]).1 (List.cons_ne_nil _ _),
   (stats_formulas [sampleWin, sampleFail]).2 (by decide)⟩

/-- The success message always has at least 64 characters plus the printed
count. -/
lemma addedMessage_length (n : ℕ) :
    (addedMessage n).length = 64 + (toString n).length := by
  have h1 : ("Sync successful! Added " : String).length = 23 := rfl
  have h2 : (" new puzzle records. Fetching new data..." : String).length = 41 := rfl
  rw [addedMessage, String.length_append, String.length_append, h1, h2]
  omega

/-- No string shorter than 64 characters is a success message. -/
lemma ne_addedMessage_of_short (s : String) (n : ℕ) (h : s.length < 64) :
    s ≠ addedMessage n := by
  intro he
  have h2 : s.length = 64 + (toString n).length := by rw [he, addedMessage_length]
  omega

/-- `syncData` never settles `syncStatus` back to the in-flight marker. -/
lemma settledStatus_ne_syncing (o : SyncOutcome) : settledStatus o ≠ "Syncing..." := by
  cases o with
  | ok r =>
    show syncMessage r ≠ "Syncing..."
    unfold syncMessage
    split
    · decide
    · split
      · decide
      · split
        · decide
        · intro he
          exact ne_addedMessage_of_short "Syncing..." r.added (by decide) he.symm
  | err m =>
    show "Sync failed: " ++ m ≠ "Syncing..."
    intro he
    have h2 := congrArg String.length he
    rw [String.length_append] at h2
    have h3 : ("Sync failed: " : String).length = 13 := rfl
    have h4 : ("Syncing..." : String).length = 10 := rfl
    omega

/-- The single-flight invariant of the sync UI: at most one request
outstanding, and exactly one precisely while `syncStatus` shows the in-flight
marker. -/
lemma syncUI_invariant {s : UIState} (h : ReachableUI s) :
    s.inFlight ≤ 1 ∧ (s.inFlight = 1 ↔ s.syncStatus = "Syncing...") := by
  induction h with
  | init => exact ⟨by norm_num, by simp⟩
  | @step s0 t0 hr hstep ih =>
    cases hstep with
    | click hbtn =>
      have hne : s0.syncStatus ≠ "Syncing..." := by
        simpa [buttonDisabled] using hbtn
      have h0 : s0.inFlight = 0 := by
        rcases ih with ⟨hle, hiff⟩
        rcases Nat.lt_or_ge s0.inFlight 1 with h | h
        · omega
        · exact absurd (hiff.mp (by omega)) hne
      exact ⟨by simp [h0], by simp [h0]⟩
    | settle o hpos =>
      rcases ih with ⟨hle, hiff⟩
      refine ⟨by simp; omega, ?_⟩
      constructor
      · intro h1
        simp at h1
        omega
      · intro h1
        exact absurd h1 (settledStatus_ne_syncing o)

/-- Claim C3: no two sync operations are ever in flight.  In every reachable
UI state at most one `/sync` request is outstanding; a request is outstanding
exactly while `syncStatus` equals `'Syncing...'`; the button is disabled
exactly then (the `:disabled` binding); and no step from a reachable state
ever exceeds one outstanding request — in particular a click is impossible
while one is in flight. -/
theorem sync_single_flight (s : UIState) (h : ReachableUI s) :
    s.inFlight ≤ 1 ∧
    (s.inFlight = 1 ↔ s.syncStatus = "Syncing...") ∧
    (buttonDisabled s = true ↔ s.syncStatus = "Syncing...") ∧
    (∀ t : UIState, UIStep s t → t.inFlight ≤ 1) ∧
    (s.inFlight = 1 → ∀ t : UIState, UIStep s t →
      t.inFlight = 0 ∧ t.syncStatus ≠ "Syncing...") := by
  obtain ⟨hle, hiff⟩ := syncUI_invariant h
  refine ⟨hle, hiff, ?_, ?_, ?_⟩
  · simp [buttonDisabled]
  · intro t hstep
    cases hstep with
    | click hbtn =>
      have hne : s.syncStatus ≠ "Syncing..." := by
        simpa [buttonDisabled] using hbtn
      have h0 : s.inFlight = 0 := by
        rcases Nat.lt_or_ge s.inFlight 1 with h' | h'
        · omega
        · exact absurd (hiff.mp (by omega)) hne
      simp [h0]
    | settle o hpos =>
      simp
      omega
  · intro h1 t hstep
    cases hstep with
    | click hbtn =>
      have hne : s.syncStatus ≠ "Syncing..." := by
        simpa [buttonDisabled] using hbtn
      exact absurd (hiff.mp h1) hne
    | settle o hpos =>
      exact ⟨by simp [h1], settledStatus_ne_syncing o⟩

/-- Witness for C3: the state right after clicking sync from the initial page
is reachable, has one request in flight, and its button is disabled. -/
theorem sync_single_flight_witness :
    ({ syncStatus := "Syncing...", inFlight := 1 } : UIState).inFlight ≤ 1 ∧
    (({ syncStatus := "Syncing...", inFlight := 1 } : UIState).inFlight = 1 ↔
      ({ syncStatus := "Syncing...", inFlight := 1 } : UIState).syncStatus = "Syncing...") ∧
    (buttonDisabled { syncStatus := "Syncing...", inFlight := 1 } = true ↔
      ({ syncStatus := "Syncing...", inFlight := 1 } : UIState).syncStatus = "Syncing...") :=
  have h := sync_single_flight { syncStatus := "Syncing...", inFlight := 1 }
    (ReachableUI.step ReachableUI.init (UIStep.click _ rfl))
  ⟨h.1, h.2.1, h.2.2.1⟩

/-- `syncData` on an `already_up_to_date` response. -/
lemma syncMessage_already {r : SyncResponse} (h : r.status = "already_up_to_date") :
    syncMessage r = "Archive already up to date!" := by
  simp [syncMessage, h]

/-- `syncData` on a `no_ids_found` response. -/
lemma syncMessage_noids {r : SyncResponse} (h : r.status = "no_ids_found") :
    syncMessage r = "No puzzle IDs found." := by
  simp [syncMessage, h]

/-- `syncData` on a `no_new_data` response (which carries `added = 0`). -/
lemma syncMessage_nonew {r : SyncResponse} (h : r.status = "no_new_data")
    (h0 : r.added = 0) :
    syncMessage r = "Sync executed, no new puzzles added." := by
  simp [syncMessage, h, h0]

/-- `syncData` on a `done` response (which carries `added > 0`). -/
lemma syncMessage_done {r : SyncResponse} (h : r.status = "done") (h0 : r.added ≠ 0) :
    syncMessage r = addedMessage r.added := by
  simp [syncMessage, h, h0]

/-- Claim C1: a `/sync` response is a summary whose status is a terminal label
of the section 4.5 state machine (wire-encoded in lower case), and `syncData`
maps each of the four terminal statuses to a distinct user-visible message,
showing the added-records message exactly for a `done` outcome (which carries
`added > 0`). -/
theorem sync_summary_messages (r r2 : SyncResponse)
    (h : ValidSummary r) (h2 : ValidSummary r2) :
    (r.status ≠ r2.status → syncMessage r ≠ syncMessage r2) ∧
    (syncMessage r = addedMessage r.added ↔ r.status = "done") := by
  obtain ⟨hmem, hnn, hd⟩ := h
  obtain ⟨hmem2, hnn2, hd2⟩ := h2
  simp only [terminalStatuses, List.mem_cons, List.not_mem_nil, or_false] at hmem hmem2
  constructor
  · intro hne
    rcases hmem with h1 | h1 | h1 | h1 <;> rcases hmem2 with h3 | h3 | h3 | h3
    · exact absurd (h1.trans h3.symm) hne
    · rw [syncMessage_already h1, syncMessage_noids h3]; decide
    · rw [syncMessage_already h1, syncMessage_nonew h3 (hnn2 h3)]; decide
    · rw [syncMessage_already h1,
        syncMessage_done h3 (Nat.pos_iff_ne_zero.mp (hd2 h3))]
      exact ne_addedMessage_of_short _ _ (by decide)
    · rw [syncMessage_noids h1, syncMessage_already h3]; decide
    · exact absurd (h1.trans h3.symm) hne
    · rw [syncMessage_noids h1, syncMessage_nonew h3 (hnn2 h3)]; decide
    · rw [syncMessage_noids h1,
        syncMessage_done h3 (Nat.pos_iff_ne_zero.mp (hd2 h3))]
      exact ne_addedMessage_of_short _ _ (by decide)
    · rw [syncMessage_nonew h1 (hnn h1), syncMessage_already h3]; decide
    · rw [syncMessage_nonew h1 (hnn h1), syncMessage_noids h3]; decide
    · exact absurd (h1.trans h3.symm) hne
    · rw [syncMessage_nonew h1 (hnn h1),
        syncMessage_done h3 (Nat.pos_iff_ne_zero.mp (hd2 h3))]
      exact ne_addedMessage_of_short _ _ (by decide)
    · rw [syncMessage_done h1 (Nat.pos_iff_ne_zero.mp (hd h1)), syncMessage_already h3]
      exact (ne_addedMessage_of_short _ _ (by decide)).symm
    · rw [syncMessage_done h1 (Nat.pos_iff_ne_zero.mp (hd h1)), syncMessage_noids h3]
      exact (ne_addedMessage_of_short _ _ (by decide)).symm
    · rw [syncMessage_done h1 (Nat.pos_iff_ne_zero.mp (hd h1)),
        syncMessage_nonew h3 (hnn2 h3)]
      exact (ne_addedMessage_of_short _ _ (by decide)).symm
    · exact absurd (h1.trans h3.symm) hne
  · rcases hmem with h1 | h1 | h1 | h1
    · rw [syncMessage_already h1, h1]
      exact iff_of_false (ne_addedMessage_of_short _ _ (by decide)) (by decide)
    · rw [syncMessage_noids h1, h1]
      exact iff_of_false (ne_addedMessage_of_short _ _ (by decide)) (by decide)
    · rw [syncMessage_nonew h1 (hnn h1), h1]
      exact iff_of_false (ne_addedMessage_of_short _ _ (by decide)) (by decide)
    · rw [syncMessage_done h1 (Nat.pos_iff_ne_zero.mp (hd h1)), h1]
      simp

/-- Witness for C1 at two concrete summaries: `done` with 3 added records and
`already_up_to_date`. -/
theorem sync_summary_messages_witness :
    syncMessage { status := "done", added := 3, errors := none } ≠
      syncMessage { status := "already_up_to_date", added := 0, errors := none } ∧
    syncMessage { status := "done", added := 3, errors := none } = addedMessage 3 :=
  ⟨(sync_summary_messages { status := "done", added := 3, errors := none }
      { status := "already_up_to_date", added := 0, errors := none }
      (by decide) (by decide)).1 (by decide),
   (sync_summary_messages { status := "done", added := 3, errors := none }
      { status := "already_up_to_date", added := 0, errors := none }
      (by decide) (by decide)).2.mpr rfl⟩

/-- Counterexample to C2 as stated: on a body carrying the spec field names
`lastSyncedAt` and `userId`, `fetchGames` comes back empty-handed — it reads
`last_synced_at` and `user_id`, not the camelCase names the claim gives. -/
theorem fetchGames_fieldnames_counterexample :
    lookupField sampleBodyCamel "lastSyncedAt" =
      some (Json.str "2024-04-03T12:00:00Z") ∧
    lookupField sampleBodyCamel "userId" = some (Json.str "u1") ∧
    (fetchGamesState sampleBodyCamel).lastSynced = none ∧
    (fetchGamesState sampleBodyCamel).userId = none :=
  ⟨rfl, rfl, rfl, rfl⟩

/-- Claim C2 (amended): the `GET /games` body has the fields `games`,
`last_synced_at` and `user_id`, and `fetchGames` reads exactly those three
fields into its state — bodies agreeing on them are indistinguishable to the
client. -/
theorem fetchGames_reads_snake_case_fields (body b2 : List (String × Json))
    (hg : lookupField body "games" = lookupField b2 "games")
    (hl : lookupField body "last_synced_at" = lookupField b2 "last_synced_at")
    (hu : lookupField body "user_id" = lookupField b2 "user_id") :
    fetchGamesState body =
      { games := lookupField body "games"
        lastSynced := lookupField body "last_synced_at"
        userId := lookupField body "user_id" } ∧
    fetchGamesState body = fetchGamesState b2 :=
  ⟨rfl, by simp only [fetchGamesState, hg, hl, hu]⟩

/-- Witness for the amended C2: a well-formed body and the same body with an
extra field read identically. -/
theorem fetchGames_reads_snake_case_fields_witness :
    fetchGamesState sampleBodySnake =
      { games := lookupField sampleBodySnake "games"
        lastSynced := lookupField sampleBodySnake "last_synced_at"
        userId := lookupField sampleBodySnake "user_id" } ∧
    fetchGamesState sampleBodySnake =
      fetchGamesState (sampleBodySnake ++ [("extra", Json.jnull)]) :=
  fetchGames_reads_snake_case_fields sampleBodySnake
    (sampleBodySnake ++ [("extra", Json.jnull)]) rfl rfl rfl

/-- Related records with a settled status are equal outright. -/
lemma CriShielded.eq_of_settled {g h : Game} (hrel : CriShielded g h)
    (hst : g.game_data.status ≠ GameStatus.IN_PROGRESS) : g = h := by
  obtain ⟨i, u, pd, pid, sol, ⟨bs, cri, hm, st⟩, fa⟩ := g
  obtain ⟨i2, u2, pd2, pid2, sol2, ⟨bs2, cri2, hm2, st2⟩, fa2⟩ := h
  obtain ⟨h1, h2, h3, h4, h5, h6, h7, h8, h9, h10⟩ := hrel
  simp_all

/-- Related records have equal statuses. -/
lemma CriShielded.status_eq {g h : Game} (hrel : CriShielded g h) :
    g.game_data.status = h.game_data.status := hrel.2.2.2.2.2.2.2.2.1

/-- A filter whose predicate only looks at the status keeps the same records
from two shielded-related lists, provided kept records are settled. -/
lemma filter_congr_of_shielded (p : Game → Bool)
    (hp : ∀ g h : Game, CriShielded g h → p g = p h)
    (hkeep : ∀ g : Game, p g = true → g.game_data.status ≠ GameStatus.IN_PROGRESS) :
    ∀ {gs hs : List Game}, List.Forall₂ CriShielded gs hs →
      gs.filter p = hs.filter p := by
  intro gs hs hf
  induction hf with
  | nil => rfl
  | @cons g h gs2 hs2 hgh htail ih =>
    by_cases hpg : p g = true
    · rw [List.filter_cons_of_pos hpg, List.filter_cons_of_pos (by rw [← hp g h hgh]; exact hpg),
        ih, hgh.eq_of_settled (hkeep g hpg)]
    · rw [List.filter_cons_of_neg (by simpa using hpg),
        List.filter_cons_of_neg (by rw [← hp g h hgh]; simpa using hpg), ih]

/-- The Turns table cell reads `currentRowIndex` only for a WIN, so it cannot
distinguish shielded-related records. -/
lemma turnsCell_congr {g h : Game} (hrel : CriShielded g h) :
    turnsCell g = turnsCell h := by
  obtain ⟨i, u, pd, pid, sol, ⟨bs, cri, hm, st⟩, fa⟩ := g
  obtain ⟨i2, u2, pd2, pid2, sol2, ⟨bs2, cri2, hm2, st2⟩, fa2⟩ := h
  obtain ⟨h1, h2, h3, h4, h5, h6, h7, h8, h9, h10⟩ := hrel
  simp only at h7 h8 h9 h10
  subst h8 h9
  cases st <;> simp_all [turnsCell]

/-- Mapping the Turns cell over shielded-related lists gives equal rows. -/
lemma map_turnsCell_congr :
    ∀ {gs hs : List Game}, List.Forall₂ CriShielded gs hs →
      gs.map turnsCell = hs.map turnsCell := by
  intro gs hs hf
  induction hf with
  | nil => rfl
  | cons hgh htail ih => simp only [List.map_cons, turnsCell_congr hgh, ih]

/-- Claim C4: no user-visible statistic, table cell or chart value reads
`currentRowIndex` of an IN_PROGRESS record: two game lists that differ only in
the `currentRowIndex` fields of IN_PROGRESS records produce the same
`averageTurns`, the same `chartData` and the same table Turns column. -/
theorem inprogress_cri_never_read (gs hs : List Game)
    (h : List.Forall₂ CriShielded gs hs) :
    averageTurns gs = averageTurns hs ∧
    chartData gs = chartData hs ∧
    gs.map turnsCell = hs.map turnsCell := by
  have hwin : winningGames gs = winningGames hs := by
    refine filter_congr_of_shielded _ (fun g h' hrel => by rw [hrel.status_eq]) ?_ h
    intro g hpg
    have : g.game_data.status = GameStatus.WIN := by simpa using hpg
    simp [this]
  have hfin : finishedGames gs.reverse = finishedGames hs.reverse := by
    refine filter_congr_of_shielded _ (fun g h' hrel => by rw [hrel.status_eq]) ?_
      (List.rel_reverse h)
    intro g hpg
    rcases (by simpa using hpg :
        g.game_data.status = GameStatus.WIN ∨ g.game_data.status = GameStatus.FAIL) with
      hw | hw <;> simp [hw]
  refine ⟨?_, ?_, map_turnsCell_congr h⟩
  · unfold averageTurns totalWins
    rw [hwin]
  · show chartFrom gs.reverse = chartFrom hs.reverse
    unfold chartFrom
    rw [hfin]

/-- Witness for C4: changing the `currentRowIndex` of an IN_PROGRESS record
from 2 to 5 changes nothing the UI shows. -/
theorem inprogress_cri_never_read_witness :
    averageTurns [sampleWin, sampleInProgress] =
      averageTurns [sampleWin, sampleInProgressAlt] ∧
    chartData [sampleWin, sampleInProgress] =
      chartData [sampleWin, sampleInProgressAlt] ∧
    [sampleWin, sampleInProgress].map turnsCell =
      [sampleWin, sampleInProgressAlt].map turnsCell :=
  inprogress_cri_never_read _ _
    (List.Forall₂.cons (by decide) (List.Forall₂.cons (by decide) List.Forall₂.nil))

/-- Claim C8: every charted data point lies in 1..7 — a WIN contributes its
`currentRowIndex` (1..6 by the record type), a FAIL contributes exactly 7, an
IN_PROGRESS game contributes no point (it is filtered out before mapping) —
and the y axis is pinned to [1, 7] with the tick at 7 rendered `'FAIL'`. -/
theorem chart_points_in_range (games : List Game)
    (hwf : ∀ g : Game, g ∈ games →
      1 ≤ g.game_data.currentRowIndex ∧ g.game_data.currentRowIndex ≤ 6) :
    (chartData games).datasets.map (fun ds => ds.data) =
      [(finishedGames games.reverse).map chartPoint] ∧
    (∀ g : Game, g.game_data.status = GameStatus.WIN →
      chartPoint g = g.game_data.currentRowIndex) ∧
    (∀ g : Game, g.game_data.status = GameStatus.FAIL → chartPoint g = 7) ∧
    (∀ g : Game, g ∈ finishedGames games.reverse →
      g.game_data.status ≠ GameStatus.IN_PROGRESS) ∧
    (∀ ds, ds ∈ (chartData games).datasets → ∀ v, v ∈ ds.data → 1 ≤ v ∧ v ≤ 7) ∧
    chartOptionsY.ymin = 1 ∧ chartOptionsY.ymax = 7 ∧
    chartOptionsY.tickLabel 7 = "FAIL" ∧
    (∀ v : ℕ, v ≠ 7 → chartOptionsY.tickLabel v = toString v) := by
  refine ⟨rfl, ?_, ?_, ?_, ?_, rfl, rfl, rfl, ?_⟩
  · intro g hg
    simp [chartPoint, hg]
  · intro g hg
    simp [chartPoint, hg]
  · intro g hg
    have hstat := (List.mem_filter.mp hg).2
    intro heq
    simp [heq] at hstat
  · intro ds hds v hv
    have hds2 : ds.data = (finishedGames games.reverse).map chartPoint := by
      rcases List.mem_cons.mp hds with h | h
      · rw [h]; rfl
      · exact absurd h (List.not_mem_nil _)
    rw [hds2] at hv
    obtain ⟨g, hgfin, rfl⟩ := List.mem_map.mp hv
    have hmem : g ∈ games := List.mem_reverse.mp (List.mem_of_mem_filter hgfin)
    have hstat := (List.mem_filter.mp hgfin).2
    rcases (by simpa using hstat :
        g.game_data.status = GameStatus.WIN ∨ g.game_data.status = GameStatus.FAIL) with
      hw | hw
    · have := hwf g hmem
      simp only [chartPoint, hw]
      simp
      omega
    · have h7 : chartPoint g = 7 := by simp [chartPoint, hw]
      simp [h7]
  · intro v hv
    simp [chartOptionsY, hv]

/-- Witness for C8 at a three-game list covering all three statuses. -/
theorem chart_points_in_range_witness :
    (chartData [sampleWin, sampleFail, sampleInProgress]).datasets.map
        (fun ds => ds.data) =
      [(finishedGames [sampleWin, sampleFail, sampleInProgress].reverse).map chartPoint] ∧
    chartOptionsY.ymin = 1 ∧ chartOptionsY.ymax = 7 ∧
    chartOptionsY.tickLabel 7 = "FAIL" :=
  have h := chart_points_in_range [sampleWin, sampleFail, sampleInProgress] (by decide)
  ⟨h.1, h.2.2.2.2.2.1, h.2.2.2.2.2.2.1, h.2.2.2.2.2.2.2.1⟩

/-- Unfolding step for the label builder: the head is labeled iff its month
differs from `lastMonth`, and either way the recursion continues with the
head's month (when they were equal, `lastMonth` already was that month). -/
lemma monthLabels_cons (last : Option ℕ) (g : Game) (rest : List Game) :
    monthLabels last (g :: rest) =
      (if some (getMonthJS g.print_date) = last then "" else monthLabel g) ::
        monthLabels (some (getMonthJS g.print_date)) rest := by
  by_cases h : some (getMonthJS g.print_date) = last
  · simp [monthLabels, ← h]
  · simp only [monthLabels, if_neg h]

/-- The labels array has exactly one entry per charted game. -/
lemma monthLabels_length (l : List Game) :
    ∀ last : Option ℕ, (monthLabels last l).length = l.length := by
  induction l with
  | nil => intro last; rfl
  | cons g rest ih => intro last; rw [monthLabels_cons]; simp [ih]

/-- With no month seen yet (first charted game), the first entry is the full
month-year label. -/
lemma monthLabels_getD_first (g : Game) (rest : List Game) :
    (monthLabels none (g :: rest)).getD 0 "" = monthLabel g := by
  rw [monthLabels_cons]
  simp

/-- A later entry is empty exactly when its game's month equals the previous
game's month, and the full label otherwise. -/
lemma monthLabels_getD_succ (l : List Game) :
    ∀ (last : Option ℕ) (j : ℕ), j + 1 < l.length →
      (monthLabels last l).getD (j + 1) "" =
        if getMonthJS ((l.getD (j + 1) default).print_date) =
            getMonthJS ((l.getD j default).print_date)
        then "" else monthLabel (l.getD (j + 1) default) := by
  induction l with
  | nil => intro last j hj; exact absurd hj (by simp)
  | cons g rest ih =>
    intro last j hj
    rw [monthLabels_cons, List.getD_cons_succ]
    cases j with
    | zero =>
      cases rest with
      | nil => exact absurd hj (by simp)
      | cons g2 rest2 =>
        rw [monthLabels_cons]
        simp [List.getD_cons_zero, List.getD_cons_succ]
    | succ k =>
      have hk : k + 1 < rest.length := by simpa using hj
      rw [ih (some (getMonthJS g.print_date)) k hk]
      simp [List.getD_cons_succ]

/-- A month-year label is never the empty string (it contains a space). -/
lemma monthLabel_ne_empty (game : Game) : monthLabel game ≠ "" := by
  intro h
  have h2 := congrArg String.length h
  rw [monthLabel, String.length_append, String.length_append] at h2
  have h3 : (" " : String).length = 1 := rfl
  have h4 : ("" : String).length = 0 := rfl
  omega

/-- In-range month indices name real months (three-letter abbreviations). -/
lemma monthShort_length (m : ℕ) (h : m ≤ 11) : (monthShort m).length = 3 := by
  interval_cases m <;> rfl

/-- Claim C6: chart labels group by month.  The labels array has exactly one
entry per finished game, in charted (reversed) order; the first finished game
is always labeled; a later entry carries the short-month-plus-year label
exactly when its game's month differs from the previous finished game's month
and is the empty string otherwise; and under well-formed dates a label's month
part is a real three-letter month name. -/
theorem chart_labels_group_by_month (games : List Game)
    (hv : ∀ g : Game, g ∈ games → MonthInRange g.print_date) :
    (chartData games).labels = monthLabels none (finishedGames games.reverse) ∧
    (chartData games).labels.length = (finishedGames games.reverse).length ∧
    (finishedGames games.reverse ≠ [] →
      (chartData games).labels.getD 0 "" =
        monthLabel ((finishedGames games.reverse).getD 0 default)) ∧
    (∀ j : ℕ, j + 1 < (finishedGames games.reverse).length →
      (chartData games).labels.getD (j + 1) "" =
        if getMonthJS (((finishedGames games.reverse).getD (j + 1) default).print_date) =
            getMonthJS (((finishedGames games.reverse).getD j default).print_date)
        then "" else monthLabel ((finishedGames games.reverse).getD (j + 1) default)) ∧
    (∀ i : ℕ, i < (finishedGames games.reverse).length →
      ((chartData games).labels.getD i "" ≠ "" ↔
        (i = 0 ∨
          getMonthJS (((finishedGames games.reverse).getD i default).print_date) ≠
            getMonthJS (((finishedGames games.reverse).getD (i - 1) default).print_date))) ∧
      (monthShort (getMonthJS
        (((finishedGames games.reverse).getD i default).print_date))).length = 3) := by
  have hlab : (chartData games).labels = monthLabels none (finishedGames games.reverse) := rfl
  have hmem : ∀ i : ℕ, i < (finishedGames games.reverse).length →
      (finishedGames games.reverse).getD i default ∈ games := by
    intro i hi
    rw [List.getD_eq_getElem _ _ hi]
    exact List.mem_reverse.mp
      (List.mem_of_mem_filter (List.getElem_mem hi))
  refine ⟨hlab, by rw [hlab, monthLabels_length], ?_, ?_, ?_⟩
  · intro hne
    rw [hlab]
    cases hfs : finishedGames games.reverse with
    | nil => exact absurd hfs hne
    | cons g rest => rw [monthLabels_getD_first]; simp
  · intro j hj
    rw [hlab, monthLabels_getD_succ _ none j hj]
  · intro i hi
    constructor
    · cases i with
      | zero =>
        have hne : finishedGames games.reverse ≠ [] := by
          intro h0
          rw [h0] at hi
          exact absurd hi (by simp)
        rw [hlab]
        cases hfs : finishedGames games.reverse with
        | nil => exact absurd hfs hne
        | cons g rest =>
          rw [monthLabels_getD_first]
          simp only [List.getD_cons_zero]
          exact iff_of_true (monthLabel_ne_empty g) (by simp)
      | succ j =>
        rw [hlab, monthLabels_getD_succ _ none j hi]
        by_cases heq : getMonthJS (((finishedGames games.reverse).getD (j + 1) default).print_date) =
            getMonthJS (((finishedGames games.reverse).getD j default).print_date)
        · rw [if_pos heq]
          refine iff_of_false (by simp) ?_
          rintro (h0 | hne)
          · exact absurd h0 (by simp)
          · exact hne (by simpa using heq)
        · rw [if_neg heq]
          exact iff_of_true (monthLabel_ne_empty _)
            (Or.inr (by simpa using heq))
    · have hrange := hv _ (hmem i hi)
      obtain ⟨h1, h2⟩ := hrange
      exact monthShort_length _ (by unfold getMonthJS; omega)

/-- Witness for C6 at a two-month, three-game list (the IN_PROGRESS game is
not charted): the labels are exactly a March label, then an April label. -/
theorem chart_labels_group_by_month_witness :
    (chartData [sampleInProgress, sampleFail, sampleWin]).labels =
      monthLabels none (finishedGames [sampleInProgress, sampleFail, sampleWin].reverse) ∧
    (chartData [sampleInProgress, sampleFail, sampleWin]).labels.length =
      (finishedGames [sampleInProgress, sampleFail, sampleWin].reverse).length ∧
    (chartData [sampleInProgress, sampleFail, sampleWin]).labels =
      ["Mar 2024", "Apr 2024"] :=
  have h := chart_labels_group_by_month [sampleInProgress, sampleFail, sampleWin] (by decide)
  ⟨h.1, h.2.1, by decide⟩

end WordleArchive
